import Mathlib

/-!  Verification of the sync-engine core (src/src/state/store.ts) and the
serverless endpoint (src/api/recs.ts) of the repository, as a shallow
embedding.  ISO-8601 timestamp strings, which the code immediately converts
with `new Date(...).getTime()`, are embedded as their numeric time values
(`Nat`).  UUID generation is embedded as a fresh-id counter.  -/

namespace SyncEngine

/-- An Item (saved recommendation), from src/src/types.ts. -/
structure Recommendation where
  id : String
  title : String
  url : Option String
  snippet : Option String
  createdAt : Nat
deriving DecidableEq

/-- The synchronized Document, from src/src/types.ts (`SavePayload`). -/
structure SavePayload where
  userId : String
  items : List Recommendation
  updatedAt : Nat
deriving DecidableEq

/-- The identity key the code actually computes: the string concatenation
`item.title + (item.url || '')` (store.ts lines 73 and 154), with no
separator between the two parts. -/
def concatKey (r : Recommendation) : String :=
  r.title ++ r.url.getD ""

/-- The identity key as the spec words it: the `(title, url)` pair, with
`url` defaulting to the empty string.  Declared only to compare the spec's
description against the code's `concatKey`. -/
def pairKey (r : Recommendation) : String × String :=
  (r.title, r.url.getD "")

/-- The dedup loop of `mergeItems` (store.ts 68–78): walk the concatenated
list keeping the first occurrence of each `concatKey`, tracking seen keys. -/
def dedupAux (seen : List String) : List Recommendation → List Recommendation
  | [] => []
  | x :: xs =>
    if concatKey x ∈ seen then dedupAux seen xs
    else x :: dedupAux (concatKey x :: seen) xs

def dedupByKey (l : List Recommendation) : List Recommendation :=
  dedupAux [] l

/-- The comparator of store.ts 81–83: sort by `createdAt` descending
(`(a, b) => dateOf b - dateOf a`).  JS `Array.prototype.sort` is stable, so
the sort is embedded as the stable `List.insertionSort` under this
relation. -/
def byNewest (a b : Recommendation) : Prop :=
  b.createdAt ≤ a.createdAt

instance : DecidableRel byNewest := fun a b =>
  inferInstanceAs (Decidable (b.createdAt ≤ a.createdAt))

instance : IsTotal Recommendation byNewest :=
  ⟨fun a b => (Nat.le_total b.createdAt a.createdAt).imp id id⟩

instance : IsTrans Recommendation byNewest :=
  ⟨fun _ _ _ hab hbc => Nat.le_trans hbc hab⟩

/-- store.ts 67–84: concatenate local then backend, deduplicate by
`concatKey` keeping first occurrences, then sort by `createdAt` descending. -/
def mergeItems (localItems backendItems : List Recommendation) : List Recommendation :=
  List.insertionSort byNewest (dedupByKey (localItems ++ backendItems))

/-- The merge result described by the spec's own words: deduplicate the
concatenation by the `(title, url)` PAIR keeping first occurrences, then
sort by `createdAt` descending.  Declared only for comparison with
`mergeItems`. -/
def specDedupAux (seen : List (String × String)) :
    List Recommendation → List Recommendation
  | [] => []
  | x :: xs =>
    if pairKey x ∈ seen then specDedupAux seen xs
    else x :: specDedupAux (pairKey x :: seen) xs

def specMergeItems (localItems backendItems : List Recommendation) : List Recommendation :=
  List.insertionSort byNewest (specDedupAux [] (localItems ++ backendItems))

/-- store.ts 86–89: 0 when the list is empty, otherwise the maximum
`createdAt` among the items. -/
def getLastUpdatedAt (items : List Recommendation) : Nat :=
  if items.isEmpty then 0
  else (items.map Recommendation.createdAt).foldr max 0

/-- The Store's state (store.ts 5–9 plus the localStorage slots it owns).
`syncDeadline` is the absolute fire time of the pending debounce timer
(`none` when no timer is pending); `lastPayload` is the field of the same
name; `pendingSync` is the localStorage `app.pendingSync` retry marker;
`nextId` models the uuid source.  The localStorage copy of `items` mirrors
`items` and is not duplicated here; the listener bus is modelled
separately below. -/
structure StoreState where
  items : List Recommendation
  userId : String
  syncDeadline : Option Nat
  lastPayload : Option SavePayload
  pendingSync : Option SavePayload
  nextId : Nat
deriving DecidableEq

/-- A store as `new Store()` leaves it when localStorage is empty and the
initial backend fetch has not resolved. -/
def initStore (uid : String) : StoreState :=
  { items := []
    userId := uid
    syncDeadline := none
    lastPayload := none
    pendingSync := none
    nextId := 0 }

/-- store.ts 54–65: merge only when the backend document's `updatedAt` is
strictly newer than the newest local `createdAt`. -/
def mergeWithBackend (s : StoreState) (backendData : SavePayload) : StoreState :=
  if getLastUpdatedAt s.items < backendData.updatedAt then
    { s with items := mergeItems s.items backendData.items }
  else s

/-- store.ts 153–174: duplicate check on the concatenated key, early return
`false`; otherwise a new item (fresh id, `createdAt := now`) is `unshift`ed
to the front and the debounced sync is scheduled (`syncDeadline := now + 500`,
store.ts 91–99). -/
def addItem (s : StoreState) (now : Nat) (title : String)
    (url snippet : Option String) : StoreState × Bool :=
  let key := title ++ url.getD ""
  if s.items.any (fun e => concatKey e == key) then (s, false)
  else
    let newItem : Recommendation :=
      { id := toString s.nextId
        title := title
        url := url
        snippet := snippet
        createdAt := now }
    ({ s with
        items := newItem :: s.items
        nextId := s.nextId + 1
        syncDeadline := some (now + 500) }, true)

/-- store.ts 176–181. -/
def removeItem (s : StoreState) (now : Nat) (id : String) : StoreState :=
  { s with
      items := s.items.filter (fun it => it.id != id)
      syncDeadline := some (now + 500) }

/-- store.ts 183–188. -/
def clearAll (s : StoreState) (now : Nat) : StoreState :=
  { s with items := [], syncDeadline := some (now + 500) }

/-- store.ts 101–117: build a snapshot of the current state, remember it as
`lastPayload`, attempt the remote put.  `succeeds` is the environment's
choice of the put outcome.  On failure the snapshot is written to the
`app.pendingSync` retry marker (store.ts 119–122); on success nothing else
happens.  Returns the new state and the payload that was sent. -/
def performSync (s : StoreState) (now : Nat) (succeeds : Bool) :
    StoreState × SavePayload :=
  let payload : SavePayload := { userId := s.userId, items := s.items, updatedAt := now }
  let s' := { s with lastPayload := some payload }
  if succeeds then (s', payload)
  else ({ s' with pendingSync := some payload }, payload)

/-- store.ts 124–134: on an online/focus signal, if the `app.pendingSync`
marker exists AND the in-memory `lastPayload` is non-null, put
`this.lastPayload` (not the stored marker); on success remove the marker.
Returns the new state and the payload the retry attempted to put (`none`
when no put was attempted). -/
def retryPendingSync (s : StoreState) (succeeds : Bool) :
    StoreState × Option SavePayload :=
  match s.pendingSync, s.lastPayload with
  | some _, some p =>
    if succeeds then ({ s with pendingSync := none }, some p)
    else (s, some p)
  | _, _ => (s, none)

/-- A public mutation of the store (the three mutating entry points). -/
inductive Mut where
  | add (title : String) (url snippet : Option String)
  | remove (id : String)
  | clear
deriving DecidableEq

def applyMut (s : StoreState) (now : Nat) : Mut → StoreState
  | .add t u sn => (addItem s now t u sn).1
  | .remove id => removeItem s now id
  | .clear => clearAll s now

/-- Event-loop model of the debounce timer (store.ts 91–99): mutations
arrive at strictly increasing times; the pending timer fires as soon as its
deadline is reached, before any strictly later mutation; after the last
mutation the pending timer (if any) fires.  Remote puts succeed in this
model (the write list records every remote write call, which is all the
debounce claims are about).  Returns the final state and the payloads of
the remote write calls, in order. -/
def run (s : StoreState) : List (Nat × Mut) → StoreState × List SavePayload
  | [] =>
    match s.syncDeadline with
    | some d =>
      let r := performSync { s with syncDeadline := none } d true
      (r.1, [r.2])
    | none => (s, [])
  | (t, m) :: rest =>
    match s.syncDeadline with
    | some d =>
      if d ≤ t then
        let r := performSync { s with syncDeadline := none } d true
        let r' := run (applyMut r.1 t m) rest
        (r'.1, r.2 :: r'.2)
      else run (applyMut s t m) rest
    | none => run (applyMut s t m) rest

/-- The pure effect of a mutation on the pair (item list, fresh-id counter);
remote I/O never touches either, so this is the items evolution of `run`. -/
def stepItems (p : List Recommendation × Nat) (now : Nat) : Mut → List Recommendation × Nat
  | .add t u sn =>
    if p.1.any (fun e => concatKey e == t ++ u.getD "") then p
    else
      ({ id := toString p.2
         title := t
         url := u
         snippet := sn
         createdAt := now } :: p.1, p.2 + 1)
  | .remove id => (p.1.filter (fun it => it.id != id), p.2)
  | .clear => ([], p.2)

def foldItems (p : List Recommendation × Nat) : List (Nat × Mut) → List Recommendation × Nat
  | [] => p
  | (t, m) :: rest => foldItems (stepItems p t m) rest

/-- Whether a mutation against the given item list passes `addItem`'s
duplicate check (removals and clears always do). -/
def mutFresh (items : List Recommendation) : Mut → Bool
  | .add t u _ => !items.any (fun e => concatKey e == t ++ u.getD "")
  | .remove _ => true
  | .clear => true

/-- Every `add` in the schedule finds its key fresh when it runs (so every
mutation in the schedule really mutates and reschedules the timer). -/
def addsSucceed (p : List Recommendation × Nat) : List (Nat × Mut) → Bool
  | [] => true
  | (t, m) :: rest => mutFresh p.1 m && addsSucceed (stepItems p t m) rest

/-- Each mutation time is strictly before the deadline pending when it
arrives (all gaps within the 500-unit quiet period). -/
def timesOk (d : Nat) : List (Nat × Mut) → Bool
  | [] => true
  | (t, _) :: rest => decide (t < d) && timesOk (t + 500) rest

/-- The fire time of the single trailing write: 500 after the last mutation. -/
def lastDeadline (d : Nat) : List (Nat × Mut) → Nat
  | [] => d
  | (t, _) :: rest => lastDeadline (t + 500) rest

/-- A registered subscriber (store.ts 191): `lid` identifies the callback,
`throws` says whether invoking it raises an exception. -/
structure Listener where
  lid : Nat
  throws : Bool
deriving DecidableEq

/-- store.ts 203–205: `this.listeners.forEach(l => l())`.  `forEach` does
not catch: a throwing listener aborts the iteration and the exception
escapes.  Returns the ids of the listeners invoked, in order, and whether
an exception escaped. -/
def notifyListeners : List Listener → List Nat × Bool
  | [] => ([], false)
  | l :: rest =>
    if l.throws then ([l.lid], true)
    else
      let r := notifyListeners rest
      (l.lid :: r.1, r.2)

/-- store.ts 193–194: subscribing pushes onto the listener array. -/
def subscribe (bus : List Listener) (l : Listener) : List Listener :=
  bus ++ [l]

/-- store.ts 195–200: the returned unsubscribe function removes the first
occurrence of that exact listener (`indexOf` + `splice`), and is a no-op
when the listener is absent. -/
def unsubscribe (bus : List Listener) (l : Listener) : List Listener :=
  bus.erase l

/-- An item-list-changing operation: an `addItem` call or a merge with a
fetched backend document (the operations the dedup invariant ranges over). -/
inductive Op where
  | add (now : Nat) (title : String) (url snippet : Option String)
  | merge (doc : SavePayload)

def applyOp (s : StoreState) : Op → StoreState
  | .add now t u sn => (addItem s now t u sn).1
  | .merge doc => mergeWithBackend s doc

def runOps (s : StoreState) (ops : List Op) : StoreState :=
  ops.foldl applyOp s

/-- Fixture: a saved item with title "ab" and empty url; its concatenated
key is the string "ab". -/
def itemAB : Recommendation := ⟨"1", "ab", some "", none, 10⟩

/-- Fixture: an item with title "a" and url "b"; a DIFFERENT `(title, url)`
pair than `itemAB`, yet the same concatenated key "ab". -/
def itemA_B : Recommendation := ⟨"2", "a", some "b", none, 5⟩

/-- Fixtures for the spec's concrete merge example: local A at T1 = 10,
remote A at T0 = 5 and remote B at T2 = 15, remote updatedAt T3 = 20. -/
def specAlocal : Recommendation := ⟨"a1", "A", some "", none, 10⟩

def specAremote : Recommendation := ⟨"a2", "A", some "", none, 5⟩

def specBremote : Recommendation := ⟨"b1", "B", some "", none, 15⟩

/-- Fixture documents for the retry claims. -/
def docA : SavePayload := ⟨"u", [], 1⟩

def docB : SavePayload := ⟨"u", [itemAB], 2⟩

end SyncEngine

namespace RecsApi

/-- A dynamic JavaScript/JSON value, as the untyped request body arrives at
the handler of src/api/recs.ts. -/
inductive JVal where
  | jnull
  | jundefined
  | jbool (b : Bool)
  | jnum (n : Int)
  | jstr (s : String)
  | jarr (elems : List JVal)
  | jobj (fields : List (String × JVal))

/-- JS `typeof v === 'object'` — true for objects, arrays AND null. -/
def typeofIsObject : JVal → Bool
  | .jnull => true
  | .jarr _ => true
  | .jobj _ => true
  | _ => false

def isString : JVal → Bool
  | .jstr _ => true
  | _ => false

def isArray : JVal → Bool
  | .jarr _ => true
  | _ => false

def lookupField (fs : List (String × JVal)) (k : String) : JVal :=
  match fs.find? (fun kv => kv.1 == k) with
  | some kv => kv.2
  | none => .jundefined

/-- JS member access `v.k` as the validator performs it: throws a TypeError
on null or undefined; yields the property (or undefined) otherwise.
Primitives and arrays have none of the accessed property names. -/
def getField : JVal → String → Except Unit JVal
  | .jnull, _ => .error ()
  | .jundefined, _ => .error ()
  | .jobj fs, k => .ok (lookupField fs k)
  | _, _ => .ok .jundefined

/-- recs.ts 49–54: the `items.every(...)` item checks, with JS `&&`
short-circuiting and member access on a null element throwing. -/
def validItems : List JVal → Except Unit Bool
  | [] => .ok true
  | item :: rest => do
    if !typeofIsObject item then return false
    let i ← getField item "id"
    if !isString i then return false
    let t ← getField item "title"
    if !isString t then return false
    let c ← getField item "createdAt"
    if !isString c then return false
    validItems rest

/-- recs.ts 43–56: `validateSavePayload`, in the code's check order
(`typeof data`, `userId`, `Array.isArray(items)`, `updatedAt`, then the
per-item checks).  `Except.error` models a thrown TypeError. -/
def validateSavePayload (data : JVal) : Except Unit Bool := do
  if !typeofIsObject data then return false
  let u ← getField data "userId"
  if !isString u then return false
  let it ← getField data "items"
  match it with
  | .jarr xs =>
    let up ← getField data "updatedAt"
    if !isString up then return false
    validItems xs
  | _ => return false

/-- The `items` list of a payload that passed validation (recs.ts 100). -/
def jitems (data : JVal) : List JVal :=
  match data with
  | .jobj fs =>
    match lookupField fs "items" with
    | .jarr xs => xs
    | _ => []
  | _ => []

/-- The `userId` string of a payload that passed validation (recs.ts 19). -/
def juserId (data : JVal) : String :=
  match data with
  | .jobj fs =>
    match lookupField fs "userId" with
    | .jstr s => s
    | _ => ""
  | _ => ""

/-- One entry of the module-level rate-limit map (recs.ts 24). -/
structure RateEntry where
  count : Nat
  resetTime : Nat
deriving DecidableEq

/-- recs.ts 26–41.  The map is an assoc list keyed by ip; `Map.set` is
modelled by replacing the entry at the front (lookup order is unaffected).
Returns whether the request is allowed and the updated map. -/
def checkRateLimit (m : List (String × RateEntry)) (ip : String) (now : Nat) :
    Bool × List (String × RateEntry) :=
  match m.find? (fun kv => kv.1 == ip) with
  | none =>
    (true, (ip, { count := 1, resetTime := now + 60000 }) :: m.filter (fun kv => kv.1 != ip))
  | some kv =>
    if kv.2.resetTime < now then
      (true, (ip, { count := 1, resetTime := now + 60000 }) :: m.filter (fun x => x.1 != ip))
    else if 10 ≤ kv.2.count then (false, m)
    else
      (true,
       (ip, { count := kv.2.count + 1, resetTime := kv.2.resetTime }) ::
         m.filter (fun x => x.1 != ip))

/-- A request to the handler.  (The OPTIONS preflight branch, which returns
before rate limiting and touches no storage, is omitted.) -/
inductive Req where
  | get (userId : Option String)
  | post (body : JVal)
  | other

/-- The handler's response, by branch of recs.ts 82–113. -/
inductive Resp where
  | err (status : Nat)
  | stored (doc : JVal)
  | synthesized (userId : String) (now : Nat)
  | success

/-- recs.ts 79–109, the part of a non-rate-limited request after the
adapter construction: `new MemoryAdapter()` (recs.ts 79) is constructed
fresh inside the handler, so every request is served from an EMPTY backing
map (`adapterStore`), which is discarded when the handler returns.  The
second component of the result is that request-local map at return time. -/
def handlerCore (req : Req) (now : Nat) : Resp × List (String × JVal) :=
  let adapterStore : List (String × JVal) := []
  match req with
  | .get none => (.err 400, adapterStore)
  | .get (some u) =>
    if u == "" then (.err 400, adapterStore)
    else
      match adapterStore.find? (fun kv => kv.1 == u) with
      | some kv => (.stored kv.2, adapterStore)
      | none => (.synthesized u now, adapterStore)
  | .post body =>
    match validateSavePayload body with
    | .error _ => (.err 500, adapterStore)
    | .ok false => (.err 400, adapterStore)
    | .ok true =>
      if 200 < (jitems body).length then (.err 400, adapterStore)
      else (.success, (juserId body, body) :: adapterStore)
  | .other => (.err 405, adapterStore)

/-- recs.ts 58–114.  The rate-limit map is module-level and persists across
requests; everything else is request-local (`handlerCore`). -/
def handler (rate : List (String × RateEntry)) (ip : String) (req : Req) (now : Nat) :
    List (String × RateEntry) × Resp × List (String × JVal) :=
  let rl := checkRateLimit rate ip now
  if !rl.1 then (rl.2, .err 429, [])
  else (rl.2, handlerCore req now)

mutual

/-- Modelled from the spec: the byte length of the JSON serialization of a
value, for bodies whose strings need no escaping (the transport-level
serialization is not part of the repository's source; the spec's network
boundary speaks of the "serialized payload" in bytes, so this definition
exists only to state the spec's 1,048,576-byte bound). -/
def jsonLen : JVal → Nat
  | .jnull => 4
  | .jundefined => 9
  | .jbool true => 4
  | .jbool false => 5
  | .jnum n => (toString n).length
  | .jstr s => s.length + 2
  | .jarr xs => 2 + jsonLenList xs + (xs.length - 1)
  | .jobj fs => 2 + jsonLenFields fs + (fs.length - 1)

def jsonLenList : List JVal → Nat
  | [] => 0
  | x :: xs => jsonLen x + jsonLenList xs

def jsonLenFields : List (String × JVal) → Nat
  | [] => 0
  | kv :: fs => kv.1.length + 3 + jsonLen kv.2 + jsonLenFields fs

end

/-- Fixture: a title of 1,100,000 characters. -/
def bigTitle : String := String.mk (List.replicate 1100000 'a')

/-- Fixture: a type-correct item whose title alone is 1.1 MB. -/
def bigItem : JVal :=
  .jobj [("id", .jstr "1"), ("title", .jstr bigTitle), ("createdAt", .jstr "2024-01-01")]

/-- Fixture: a type-correct single-item payload whose JSON serialization
exceeds 1,048,576 bytes. -/
def bigBody : JVal :=
  .jobj [("userId", .jstr "u"), ("items", .jarr [bigItem]), ("updatedAt", .jstr "2024-01-02")]

/-- Fixture: a small valid payload with one item. -/
def smallBody : JVal :=
  .jobj [("userId", .jstr "u"),
         ("items", .jarr [.jobj [("id", .jstr "1"), ("title", .jstr "t"),
                                 ("createdAt", .jstr "c")]]),
         ("updatedAt", .jstr "w")]

/-- Fixture: a type-valid payload with 201 items (over the 200-item cap). -/
def manyBody : JVal :=
  .jobj [("userId", .jstr "u"),
         ("items", .jarr (List.replicate 201
           (.jobj [("id", .jstr "1"), ("title", .jstr "t"),
                   ("createdAt", .jstr "c")]))),
         ("updatedAt", .jstr "w")]

end RecsApi

/-! ## Shared lemmas about the dedup pass and `mergeItems` -/

namespace SyncEngine

theorem mem_keys_dedupAux {seen : List String} {l : List Recommendation} {k : String}
    (hk : k ∈ (dedupAux seen l).map concatKey) : k ∉ seen := by
  induction l generalizing seen with
  | nil => simp [dedupAux] at hk
  | cons x xs ih =>
    by_cases h : concatKey x ∈ seen
    · rw [dedupAux, if_pos h] at hk
      exact ih hk
    · rw [dedupAux, if_neg h] at hk
      simp only [List.map_cons, List.mem_cons] at hk
      rcases hk with rfl | hk
      · exact h
      · intro hseen
        exact ih hk (List.mem_cons_of_mem _ hseen)

theorem nodup_keys_dedupAux (seen : List String) (l : List Recommendation) :
    ((dedupAux seen l).map concatKey).Nodup := by
  induction l generalizing seen with
  | nil => simp [dedupAux]
  | cons x xs ih =>
    by_cases h : concatKey x ∈ seen
    · rw [dedupAux, if_pos h]
      exact ih _
    · rw [dedupAux, if_neg h]
      simp only [List.map_cons, List.nodup_cons]
      exact ⟨fun hmem => (mem_keys_dedupAux hmem) (List.mem_cons_self _ _), ih _⟩

theorem key_mem_dedupAux {l : List Recommendation} {x : Recommendation} (hx : x ∈ l) :
    ∀ seen, concatKey x ∈ seen ∨ concatKey x ∈ (dedupAux seen l).map concatKey := by
  induction l with
  | nil => simp at hx
  | cons y ys ih =>
    intro seen
    by_cases h : concatKey y ∈ seen
    · rw [dedupAux, if_pos h]
      rcases List.mem_cons.mp hx with rfl | hx'
      · exact .inl h
      · exact ih hx' seen
    · rw [dedupAux, if_neg h]
      rcases List.mem_cons.mp hx with rfl | hx'
      · right
        simp
      · rcases ih hx' (concatKey y :: seen) with hs | hd
        · rcases List.mem_cons.mp hs with heq | hs'
          · right
            simp [heq]
          · exact .inl hs'
        · right
          simp [hd]

theorem dedupAux_eq_nil {seen : List String} {l : List Recommendation}
    (h : ∀ x ∈ l, concatKey x ∈ seen) : dedupAux seen l = [] := by
  induction l with
  | nil => rfl
  | cons y ys ih =>
    rw [dedupAux, if_pos (h y (List.mem_cons_self _ _))]
    exact ih (fun x hx => h x (List.mem_cons_of_mem _ hx))

theorem dedupAux_append {m b : List Recommendation} {seen : List String}
    (hnd : (m.map concatKey).Nodup)
    (hdis : ∀ k ∈ m.map concatKey, k ∉ seen)
    (hcov : ∀ x ∈ b, concatKey x ∈ seen ∨ concatKey x ∈ m.map concatKey) :
    dedupAux seen (m ++ b) = m := by
  induction m generalizing seen with
  | nil =>
    simp only [List.nil_append]
    exact dedupAux_eq_nil (fun x hx => (hcov x hx).resolve_right (by simp))
  | cons y ys ih =>
    simp only [List.map_cons, List.nodup_cons] at hnd
    have hy : concatKey y ∉ seen := hdis _ (by simp)
    rw [List.cons_append, dedupAux, if_neg hy]
    congr 1
    apply ih hnd.2
    · intro k hk hks
      rcases List.mem_cons.mp hks with rfl | hks'
      · exact hnd.1 hk
      · exact hdis k (by simp [hk]) hks'
    · intro x hx
      rcases hcov x hx with hs | hm
      · exact .inl (List.mem_cons_of_mem _ hs)
      · simp only [List.map_cons, List.mem_cons] at hm
        rcases hm with heq | hm'
        · exact .inl (by simp [heq])
        · exact .inr hm'

theorem nodup_keys_mergeItems (a b : List Recommendation) :
    ((mergeItems a b).map concatKey).Nodup := by
  have hperm : List.Perm ((mergeItems a b).map concatKey)
      ((dedupByKey (a ++ b)).map concatKey) :=
    (List.perm_insertionSort byNewest (dedupByKey (a ++ b))).map concatKey
  exact hperm.nodup_iff.mpr (nodup_keys_dedupAux [] _)

theorem sorted_mergeItems (a b : List Recommendation) :
    List.Sorted byNewest (mergeItems a b) :=
  List.sorted_insertionSort byNewest _

theorem keys_sub_mergeItems {a b : List Recommendation} {x : Recommendation} (hx : x ∈ b) :
    concatKey x ∈ (mergeItems a b).map concatKey := by
  have h1 : concatKey x ∈ (dedupByKey (a ++ b)).map concatKey := by
    rcases key_mem_dedupAux (l := a ++ b) (x := x) (by simp [hx]) [] with h | h
    · simp at h
    · exact h
  have hperm : List.Perm ((mergeItems a b).map concatKey)
      ((dedupByKey (a ++ b)).map concatKey) :=
    (List.perm_insertionSort byNewest (dedupByKey (a ++ b))).map concatKey
  exact hperm.mem_iff.mpr h1

theorem mergeItems_idem (a b : List Recommendation) :
    mergeItems (mergeItems a b) b = mergeItems a b := by
  have hnd : ((mergeItems a b).map concatKey).Nodup := nodup_keys_mergeItems a b
  have hded : dedupByKey (mergeItems a b ++ b) = mergeItems a b := by
    apply dedupAux_append hnd
    · intro k _ hk
      simp at hk
    · intro x hx
      exact .inr (keys_sub_mergeItems hx)
  show List.insertionSort byNewest (dedupByKey (mergeItems a b ++ b)) = mergeItems a b
  rw [hded]
  exact (sorted_mergeItems a b).insertionSort_eq

theorem concatKey_eq_pair (r : Recommendation) :
    concatKey r = (pairKey r).1 ++ (pairKey r).2 := rfl

theorem nodup_pairKey_of_concatKey {l : List Recommendation}
    (h : (l.map concatKey).Nodup) : (l.map pairKey).Nodup := by
  have he : l.map concatKey = (l.map pairKey).map (fun p => p.1 ++ p.2) := by
    rw [List.map_map]
    rfl
  rw [he] at h
  exact h.of_map

theorem mergeWithBackend_items (s : StoreState) (doc : SavePayload) :
    (mergeWithBackend s doc).items =
      if getLastUpdatedAt s.items < doc.updatedAt then mergeItems s.items doc.items
      else s.items := by
  simp only [mergeWithBackend]
  split <;> rfl

end SyncEngine

namespace SyncEngine

/-- C1 counterexample: the merge does NOT deduplicate by the `(title, url)`
pair.  With a local item (title "ab", url "") and a remote item (title "a",
url "b") — distinct pairs, same concatenated string "ab" — and a remote
document strictly newer than the newest local `createdAt`, the code keeps
only the local item, while the claim's pair-keyed dedup would keep both
(sorted by `createdAt` descending). -/
theorem c1_merge_pair_key_cex :
    pairKey itemAB ≠ pairKey itemA_B
    ∧ (mergeWithBackend { initStore "u" with items := [itemAB] }
        ⟨"u", [itemA_B], 20⟩).items = [itemAB]
    ∧ specMergeItems [itemAB] [itemA_B] = [itemAB, itemA_B]
    ∧ ([itemAB] : List Recommendation) ≠ [itemAB, itemA_B] := by
  decide

/-- C1 (amended): when the remote document's `updatedAt` strictly exceeds
the maximum local `createdAt`, the merge replaces the list with the
concatenation local-then-remote, deduplicated by the CONCATENATED
`title + (url or empty)` string key keeping first occurrences (so local
items win ties over remote items with the same key), stably sorted by
`createdAt` descending; on the spec's concrete example (local A at T1,
remote A at T0 and B at T2, updatedAt T3 > T1) the result is
[B at T2, A(local) at T1]. -/
theorem c1_merge_protocol_amended :
    (∀ (s : StoreState) (doc : SavePayload),
        getLastUpdatedAt s.items < doc.updatedAt →
          (mergeWithBackend s doc).items
              = List.insertionSort byNewest (dedupByKey (s.items ++ doc.items))
            ∧ List.Sorted byNewest (mergeWithBackend s doc).items
            ∧ ((mergeWithBackend s doc).items.map concatKey).Nodup)
    ∧ (mergeWithBackend { initStore "u" with items := [specAlocal] }
        ⟨"u", [specAremote, specBremote], 20⟩).items = [specBremote, specAlocal] := by
  constructor
  · intro s doc h
    refine ⟨?_, ?_, ?_⟩
    · rw [mergeWithBackend_items, if_pos h]
      rfl
    · rw [show (mergeWithBackend s doc).items = mergeItems s.items doc.items from by
        rw [mergeWithBackend_items, if_pos h]]
      exact sorted_mergeItems _ _
    · rw [show (mergeWithBackend s doc).items = mergeItems s.items doc.items from by
        rw [mergeWithBackend_items, if_pos h]]
      exact nodup_keys_mergeItems _ _
  · decide

/-- C1 witness: the amended merge shape, instantiated on the spec's
concrete example (remote `updatedAt` 20 strictly newer than local max 10). -/
theorem c1_merge_protocol_amended_witness :
    getLastUpdatedAt ({ initStore "u" with items := [specAlocal] } : StoreState).items < 20
    ∧ (mergeWithBackend { initStore "u" with items := [specAlocal] }
          ⟨"u", [specAremote, specBremote], 20⟩).items
        = List.insertionSort byNewest
            (dedupByKey ([specAlocal] ++ [specAremote, specBremote])) :=
  ⟨by decide,
   (c1_merge_protocol_amended.1 { initStore "u" with items := [specAlocal] }
     ⟨"u", [specAremote, specBremote], 20⟩ (by decide)).1⟩

theorem nodup_keys_applyOp {s : StoreState} (h : (s.items.map concatKey).Nodup) (op : Op) :
    ((applyOp s op).items.map concatKey).Nodup := by
  cases op with
  | add now t u sn =>
    by_cases hex : s.items.any (fun e => concatKey e == t ++ u.getD "") = true
    · simpa [applyOp, addItem, hex] using h
    · have hnot : ∀ e ∈ s.items, concatKey e ≠ t ++ u.getD "" := by
        intro e he heq
        exact hex (List.any_eq_true.mpr ⟨e, he, by simp [heq]⟩)
      have : (applyOp s (.add now t u sn)).items
          = { id := toString s.nextId, title := t, url := u, snippet := sn,
              createdAt := now } :: s.items := by
        simp [applyOp, addItem, hex]
      rw [this]
      simp only [List.map_cons, List.nodup_cons]
      refine ⟨?_, h⟩
      intro hmem
      rcases List.mem_map.mp hmem with ⟨e, he, heq⟩
      exact hnot e he (by simpa [concatKey] using heq)
  | merge doc =>
    have : (applyOp s (.merge doc)).items
        = if getLastUpdatedAt s.items < doc.updatedAt then mergeItems s.items doc.items
          else s.items := mergeWithBackend_items s doc
    rw [this]
    split
    · exact nodup_keys_mergeItems _ _
    · exact h

/-- C2: starting from an empty store, any sequence of `addItem` calls and
merges leaves a list with pairwise-distinct `(title, url)` identity keys,
and an `addItem` whose `(title, url)` key equals that of an existing item
returns `false` and leaves the whole state unchanged. -/
theorem c2_dedup_invariant :
    (∀ (uid : String) (ops : List Op),
        ((runOps (initStore uid) ops).items.map pairKey).Nodup)
    ∧ (∀ (s : StoreState) (now : Nat) (t : String) (u sn : Option String),
        (∃ e ∈ s.items, pairKey e = (t, u.getD "")) →
          addItem s now t u sn = (s, false)) := by
  constructor
  · intro uid ops
    apply nodup_pairKey_of_concatKey
    have hstep : ∀ (s : StoreState), (s.items.map concatKey).Nodup →
        ((runOps s ops).items.map concatKey).Nodup := by
      induction ops with
      | nil => exact fun s hs => hs
      | cons op rest ih => exact fun s hs => ih _ (nodup_keys_applyOp hs op)
    exact hstep _ (by simp [initStore])
  · rintro s now t u sn ⟨e, he, hkey⟩
    have hck : concatKey e = t ++ u.getD "" := by
      have h1 : e.title = t := congrArg Prod.fst hkey
      have h2 : e.url.getD "" = u.getD "" := congrArg Prod.snd hkey
      rw [concatKey, h1, h2]
    have hany : s.items.any (fun e => concatKey e == t ++ u.getD "") = true :=
      List.any_eq_true.mpr ⟨e, he, by simp [hck]⟩
    simp [addItem, hany]

/-- C2 witness: two same-key adds from the empty store leave a one-item
list with distinct pair keys, and a duplicate `(title, url)` add against a
populated store returns `false` unchanged. -/
theorem c2_dedup_invariant_witness :
    ((runOps (initStore "u") [.add 1 "x" none none, .add 2 "x" none none]).items.map
        pairKey).Nodup
    ∧ addItem { initStore "u" with items := [itemAB] } 20 "ab" (some "") none
        = ({ initStore "u" with items := [itemAB] }, false) :=
  ⟨c2_dedup_invariant.1 "u" _,
   c2_dedup_invariant.2 _ 20 "ab" (some "") none ⟨itemAB, by simp, by decide⟩⟩

/-- C3 counterexample: `addItem` returns `false` for an input whose
`(title, url)` identity key matches NO existing item — the title "a" with
url "b" collides with the existing (title "ab", url "") only on the
concatenated string — so "returns false if and only if an item with the
same (title, url) key exists" fails in the only-if direction. -/
theorem c3_addItem_pair_key_cex :
    ({ initStore "u" with items := [itemAB] } : StoreState).items = [itemAB]
    ∧ pairKey itemAB ≠ ("a", "b")
    ∧ (addItem { initStore "u" with items := [itemAB] } 20 "a" (some "b") none).2
        = false := by
  decide

/-- C3 (amended): `addItem` returns `false` (with the state entirely
unchanged) if and only if some existing item has the same CONCATENATED
`title + (url or empty)` string key; otherwise it returns `true` after
inserting, at index 0, a new item carrying a freshly generated id and the
current timestamp. -/
theorem c3_addItem_amended :
    ∀ (s : StoreState) (now : Nat) (t : String) (u sn : Option String),
      ((addItem s now t u sn).2 = false
          ↔ s.items.any (fun e => concatKey e == t ++ u.getD "") = true)
      ∧ ((addItem s now t u sn).2 = false → (addItem s now t u sn).1 = s)
      ∧ ((addItem s now t u sn).2 = true →
          (addItem s now t u sn).1.items
              = { id := toString s.nextId, title := t, url := u, snippet := sn,
                  createdAt := now } :: s.items
            ∧ (addItem s now t u sn).1.nextId = s.nextId + 1) := by
  intro s now t u sn
  by_cases h : s.items.any (fun e => concatKey e == t ++ u.getD "") = true
  · simp [addItem, h]
  · simp [addItem, h]

/-- C3 witness: a fresh-key add against the empty store succeeds and puts
the new item (fresh id "0", createdAt 7) at index 0. -/
theorem c3_addItem_amended_witness :
    (addItem (initStore "u") 7 "x" none none).2 = true
    ∧ (addItem (initStore "u") 7 "x" none none).1.items
        = [{ id := "0", title := "x", url := none, snippet := none, createdAt := 7 }] :=
  ⟨by decide,
   ((c3_addItem_amended (initStore "u") 7 "x" none none).2.2 (by decide)).1⟩

/-- C6: when the remote document's `updatedAt` is at most the maximum local
`createdAt` (0 for an empty list) the merge check changes nothing at all;
and a second application of the Merge Protocol with the same remote
document never changes the item list again. -/
theorem c6_stale_and_idempotent :
    (∀ (s : StoreState) (doc : SavePayload),
        doc.updatedAt ≤ getLastUpdatedAt s.items → mergeWithBackend s doc = s)
    ∧ (∀ (s : StoreState) (doc : SavePayload),
        (mergeWithBackend (mergeWithBackend s doc) doc).items
          = (mergeWithBackend s doc).items) := by
  have hbase : ∀ (s : StoreState) (doc : SavePayload),
      doc.updatedAt ≤ getLastUpdatedAt s.items → mergeWithBackend s doc = s := by
    intro s doc h
    simp only [mergeWithBackend, if_neg (Nat.not_lt.mpr h)]
  refine ⟨hbase, ?_⟩
  intro s doc
  rcases Nat.lt_or_ge (getLastUpdatedAt s.items) doc.updatedAt with h1 | h1
  · have e1 : (mergeWithBackend s doc).items = mergeItems s.items doc.items := by
      rw [mergeWithBackend_items, if_pos h1]
    rw [mergeWithBackend_items, e1]
    split
    · exact mergeItems_idem _ _
    · rfl
  · rw [hbase s doc h1, hbase s doc h1]

/-- C6 witness: a remote document timestamped exactly at the local maximum
(10) is stale, and re-merging a strictly newer document (updatedAt 20) a
second time leaves the merged list unchanged. -/
theorem c6_stale_and_idempotent_witness :
    (10 : Nat) ≤ getLastUpdatedAt ({ initStore "u" with items := [itemAB] } : StoreState).items
    ∧ mergeWithBackend { initStore "u" with items := [itemAB] } ⟨"u", [itemA_B], 10⟩
        = { initStore "u" with items := [itemAB] }
    ∧ (mergeWithBackend
          (mergeWithBackend { initStore "u" with items := [specAlocal] }
            ⟨"u", [specAremote, specBremote], 20⟩)
          ⟨"u", [specAremote, specBremote], 20⟩).items
        = (mergeWithBackend { initStore "u" with items := [specAlocal] }
            ⟨"u", [specAremote, specBremote], 20⟩).items :=
  ⟨by decide,
   c6_stale_and_idempotent.1 _ ⟨"u", [itemA_B], 10⟩ (by decide),
   c6_stale_and_idempotent.2 _ _⟩

end SyncEngine

namespace SyncEngine

/-- C4 counterexample: the stored marker is NOT what the retry sends.  With
the `app.pendingSync` marker holding `docA` but the in-memory `lastPayload`
holding a different `docB`, the online/focus retry puts `docB`; and with
the marker present but `lastPayload` null (a fresh session), no retry put
is attempted at all. -/
theorem c4_retry_marker_cex :
    ({ initStore "u" with lastPayload := some docB, pendingSync := some docA } :
        StoreState).pendingSync = some docA
    ∧ docB ≠ docA
    ∧ (retryPendingSync
        { initStore "u" with lastPayload := some docB, pendingSync := some docA }
        true).2 = some docB
    ∧ (retryPendingSync { initStore "u" with pendingSync := some docA } true).2
        = none := by
  decide

/-- C4 (amended): on an online/focus signal, a retry put is attempted only
when BOTH the stored retry marker and the in-memory `lastPayload` exist,
and the payload sent is `lastPayload` (which equals the failed snapshot
when the failed write was the most recent sync); a successful retry clears
the marker, a failed one leaves it, and in the write-failure-then-signal
scenario exactly one retry with the failed snapshot occurs and later
signals attempt nothing. -/
theorem c4_retry_amended :
    (∀ (s : StoreState) (b : Bool) (p m : SavePayload),
        s.pendingSync = some m → s.lastPayload = some p →
          (retryPendingSync s b).2 = some p
          ∧ (retryPendingSync s true).1 = { s with pendingSync := none }
          ∧ (retryPendingSync s false).1 = s)
    ∧ (∀ (s : StoreState) (b : Bool), s.pendingSync = none →
        retryPendingSync s b = (s, none))
    ∧ (∀ (s : StoreState) (b : Bool), s.lastPayload = none →
        retryPendingSync s b = (s, none))
    ∧ (∀ (s : StoreState) (now : Nat),
        (retryPendingSync (performSync s now false).1 true).2
            = some (performSync s now false).2
        ∧ (retryPendingSync (performSync s now false).1 true).1.pendingSync = none
        ∧ retryPendingSync (retryPendingSync (performSync s now false).1 true).1 true
            = ((retryPendingSync (performSync s now false).1 true).1, none)) := by
  refine ⟨?_, ?_, ?_, ?_⟩
  · intro s b p m hm hp
    refine ⟨?_, ?_, ?_⟩
    · cases b <;> simp [retryPendingSync, hm, hp]
    · simp [retryPendingSync, hm, hp]
    · simp [retryPendingSync, hm, hp]
  · intro s b hm
    simp [retryPendingSync, hm]
  · intro s b hp
    rw [retryPendingSync]
    rcases hps : s.pendingSync with _ | m <;> simp [hp]
  · intro s now
    simp [performSync, retryPendingSync]

/-- C4 witness: the amended retry behavior at a concrete state whose marker
and lastPayload are both set. -/
theorem c4_retry_amended_witness :
    ({ initStore "u" with lastPayload := some docB, pendingSync := some docA } :
        StoreState).pendingSync = some docA
    ∧ (retryPendingSync
        { initStore "u" with lastPayload := some docB, pendingSync := some docA }
        true).2 = some docB :=
  ⟨rfl,
   (c4_retry_amended.1
      { initStore "u" with lastPayload := some docB, pendingSync := some docA }
      true docB docA rfl rfl).1⟩

/-- C5 counterexample: a successful debounced put clears nothing.  After
`performSync` succeeds, the in-memory `lastPayload` (the spec's
pendingWrite) is still set, and a retry marker already present in local
persistence is still there. -/
theorem c5_success_not_cleared_cex :
    ({ initStore "u" with pendingSync := some docA } : StoreState).pendingSync
        = some docA
    ∧ (performSync { initStore "u" with pendingSync := some docA } 100 true).1.lastPayload
        = some ⟨"u", [], 100⟩
    ∧ (performSync { initStore "u" with pendingSync := some docA } 100 true).1.lastPayload
        ≠ none
    ∧ (performSync { initStore "u" with pendingSync := some docA } 100 true).1.pendingSync
        = some docA := by
  decide

/-- C5 (amended): when the debounce timer fires, the engine builds the
snapshot (current userId, current items, updatedAt = now) and remembers it
as `lastPayload`; on failure that snapshot is also persisted as the
`app.pendingSync` retry marker and no timed retry is scheduled; on success
the state changes in no other way — `lastPayload` stays set and any
pre-existing retry marker is left in local persistence. -/
theorem c5_performSync_amended :
    ∀ (s : StoreState) (now : Nat),
      performSync s now true
          = ({ s with lastPayload := some ⟨s.userId, s.items, now⟩ },
             ⟨s.userId, s.items, now⟩)
      ∧ performSync s now false
          = ({ s with
                lastPayload := some ⟨s.userId, s.items, now⟩
                pendingSync := some ⟨s.userId, s.items, now⟩ },
             ⟨s.userId, s.items, now⟩)
      ∧ (performSync s now true).1.syncDeadline = s.syncDeadline
      ∧ (performSync s now false).1.syncDeadline = s.syncDeadline
      ∧ (performSync s now true).1.items = s.items := by
  intro s now
  exact ⟨rfl, rfl, rfl, rfl, rfl⟩

end SyncEngine

namespace SyncEngine

theorem applyMut_fields (s : StoreState) (now : Nat) (m : Mut)
    (hf : mutFresh s.items m = true) :
    (applyMut s now m).syncDeadline = some (now + 500)
    ∧ ((applyMut s now m).items, (applyMut s now m).nextId)
        = stepItems (s.items, s.nextId) now m
    ∧ (applyMut s now m).userId = s.userId := by
  cases m with
  | add t u sn =>
    have hx : s.items.any (fun e => concatKey e == t ++ u.getD "") = false := by
      simpa [mutFresh] using hf
    refine ⟨?_, ?_, ?_⟩ <;> simp [applyMut, addItem, stepItems, hx]
  | remove id =>
    refine ⟨rfl, ?_, rfl⟩
    simp [applyMut, removeItem, stepItems]
  | clear =>
    refine ⟨rfl, ?_, rfl⟩
    simp [applyMut, clearAll, stepItems]

theorem run_invariant :
    ∀ (ms : List (Nat × Mut)) (s : StoreState) (d : Nat),
      s.syncDeadline = some d → timesOk d ms = true →
      addsSucceed (s.items, s.nextId) ms = true →
      (run s ms).2
          = [⟨s.userId, (foldItems (s.items, s.nextId) ms).1, lastDeadline d ms⟩]
      ∧ (run s ms).1.items = (foldItems (s.items, s.nextId) ms).1 := by
  intro ms
  induction ms with
  | nil =>
    intro s d hd _ _
    constructor
    · simp [run, hd, performSync, foldItems, lastDeadline]
    · simp [run, hd, performSync, foldItems]
  | cons hdm rest ih =>
    rcases hdm with ⟨t, m⟩
    intro s d hd hT hA
    simp only [timesOk, Bool.and_eq_true, decide_eq_true_eq] at hT
    simp only [addsSucceed, Bool.and_eq_true] at hA
    have hnle : ¬ d ≤ t := Nat.not_le.mpr hT.1
    obtain ⟨hdl, hfields, huid⟩ := applyMut_fields s t m hA.1
    have hA2 : addsSucceed ((applyMut s t m).items, (applyMut s t m).nextId) rest
        = true := by
      rw [hfields]
      exact hA.2
    have e : run s ((t, m) :: rest) = run (applyMut s t m) rest := by
      simp [run, hd, hnle]
    have IH := ih (applyMut s t m) (t + 500) hdl hT.2 hA2
    rw [e]
    constructor
    · have h1 := IH.1
      rw [huid, hfields] at h1
      simpa [foldItems, lastDeadline] using h1
    · have h2 := IH.2
      rw [hfields] at h2
      simpa [foldItems] using h2

/-- C7: every successful mutation cancels any pending debounce timer and
reschedules the write to 500 time units after itself (trailing-edge
debounce); and for any nonempty schedule of successful mutations whose
gaps are all inside the quiet period, starting with no pending timer, the
run produces exactly one remote write call, whose payload carries the
final item list after the last mutation (intermediate states are never
transmitted) and the fire time 500 after the last mutation. -/
theorem c7_debounce_coalescing :
    (∀ (s : StoreState) (now : Nat) (m : Mut),
        mutFresh s.items m = true →
          (applyMut s now m).syncDeadline = some (now + 500))
    ∧ (∀ (s : StoreState) (t : Nat) (m : Mut) (rest : List (Nat × Mut)),
        s.syncDeadline = none →
        addsSucceed (s.items, s.nextId) ((t, m) :: rest) = true →
        timesOk (t + 500) rest = true →
          (run s ((t, m) :: rest)).2
              = [⟨s.userId, (foldItems (s.items, s.nextId) ((t, m) :: rest)).1,
                  lastDeadline (t + 500) rest⟩]
          ∧ (run s ((t, m) :: rest)).1.items
              = (foldItems (s.items, s.nextId) ((t, m) :: rest)).1) := by
  constructor
  · intro s now m hf
    exact (applyMut_fields s now m hf).1
  · intro s t m rest hd hA hT
    simp only [addsSucceed, Bool.and_eq_true] at hA
    obtain ⟨hdl, hfields, huid⟩ := applyMut_fields s t m hA.1
    have hA2 : addsSucceed ((applyMut s t m).items, (applyMut s t m).nextId) rest
        = true := by
      rw [hfields]
      exact hA.2
    have e : run s ((t, m) :: rest) = run (applyMut s t m) rest := by
      simp [run, hd]
    have IH := run_invariant rest (applyMut s t m) (t + 500) hdl hT hA2
    rw [e]
    constructor
    · have h1 := IH.1
      rw [huid, hfields] at h1
      simpa [foldItems, lastDeadline] using h1
    · have h2 := IH.2
      rw [hfields] at h2
      simpa [foldItems] using h2

/-- C7 witness: three `addItem` calls at times 0, 100, 200 (all gaps under
500) from a fresh store produce exactly one remote write, fired at 700,
containing all three items. -/
theorem c7_debounce_coalescing_witness :
    (run (initStore "u")
        [(0, .add "x" none none), (100, .add "y" none none),
         (200, .add "z" none none)]).2
      = [⟨"u",
          (foldItems ([], 0)
            [(0, .add "x" none none), (100, .add "y" none none),
             (200, .add "z" none none)]).1, 700⟩]
    ∧ (run (initStore "u")
        [(0, .add "x" none none), (100, .add "y" none none),
         (200, .add "z" none none)]).1.items
      = (foldItems ([], 0)
          [(0, .add "x" none none), (100, .add "y" none none),
           (200, .add "z" none none)]).1 :=
  c7_debounce_coalescing.2 (initStore "u") 0 (.add "x" none none)
    [(100, .add "y" none none), (200, .add "z" none none)] rfl (by decide) (by decide)

end SyncEngine

namespace SyncEngine

/-- C8 counterexample: a listener exception DOES prevent the remaining
listeners from running.  With listener 0 throwing and listener 1
subscribed after it, `notifyListeners` invokes only listener 0 and the
exception escapes, so listener 1 — although subscribed — is never
invoked. -/
theorem c8_listener_exception_cex :
    notifyListeners [⟨0, true⟩, ⟨1, false⟩] = ([0], true)
    ∧ ([⟨0, true⟩, ⟨1, false⟩] : List Listener).map Listener.lid = [0, 1]
    ∧ ¬ (1 ∈ (notifyListeners [⟨0, true⟩, ⟨1, false⟩]).1) := by
  decide

/-- C8 (amended): every notification invokes listeners in subscription
order up to and including the first listener that throws — when none
throws, all of them run, in order, and no exception escapes; when one
throws, the listeners after it are skipped and the exception escapes
`notifyListeners` (the listener array itself is untouched); and
unsubscribing removes exactly the first occurrence of that listener,
leaving all other subscriptions and their order intact. -/
theorem c8_subscription_amended :
    (∀ (bus : List Listener), (∀ l ∈ bus, l.throws = false) →
        notifyListeners bus = (bus.map Listener.lid, false))
    ∧ (∀ (b1 : List Listener) (l : Listener) (b2 : List Listener),
        (∀ x ∈ b1, x.throws = false) → l.throws = true →
          notifyListeners (b1 ++ l :: b2) = (b1.map Listener.lid ++ [l.lid], true))
    ∧ (∀ (b1 : List Listener) (l : Listener) (b2 : List Listener),
        l ∉ b1 → unsubscribe (b1 ++ l :: b2) l = b1 ++ b2)
    ∧ (∀ (bus : List Listener) (l : Listener), subscribe bus l = bus ++ [l]) := by
  refine ⟨?_, ?_, ?_, fun _ _ => rfl⟩
  · intro bus h
    induction bus with
    | nil => rfl
    | cons x xs ih =>
      have hx : x.throws = false := h x (by simp)
      simp [notifyListeners, hx, ih (fun l hl => h l (by simp [hl]))]
  · intro b1 l b2 h1 hl
    induction b1 with
    | nil => simp [notifyListeners, hl]
    | cons x xs ih =>
      have hx : x.throws = false := h1 x (by simp)
      simp [notifyListeners, hx, ih (fun y hy => h1 y (by simp [hy]))]
  · intro b1 l b2 h
    rw [unsubscribe, List.erase_append_right _ h, List.erase_cons_head]

/-- C8 witness: the amended notification and unsubscription behavior on
concrete buses — two throw-free listeners both run in order; a throwing
head cuts off the tail; unsubscribing the middle listener keeps the other
two in order. -/
theorem c8_subscription_amended_witness :
    notifyListeners [⟨5, false⟩, ⟨6, false⟩] = ([5, 6], false)
    ∧ notifyListeners ([⟨5, false⟩] ++ ⟨7, true⟩ :: [⟨6, false⟩]) = ([5, 7], true)
    ∧ unsubscribe ([⟨5, false⟩] ++ ⟨7, true⟩ :: [⟨6, false⟩]) ⟨7, true⟩
        = [⟨5, false⟩, ⟨6, false⟩] :=
  ⟨c8_subscription_amended.1 [⟨5, false⟩, ⟨6, false⟩] (by decide),
   c8_subscription_amended.2.1 [⟨5, false⟩] ⟨7, true⟩ [⟨6, false⟩] (by decide) (by decide),
   c8_subscription_amended.2.2.1 [⟨5, false⟩] ⟨7, true⟩ [⟨6, false⟩] (by decide)⟩

end SyncEngine

namespace RecsApi

theorem bigTitle_length : bigTitle.length = 1100000 := by
  have h : bigTitle.length = (List.replicate 1100000 'a').length := rfl
  rw [h, List.length_replicate]

theorem jsonLen_jstr (s : String) : jsonLen (.jstr s) = s.length + 2 := by
  simp [jsonLen]

theorem jsonLen_jarr (xs : List JVal) :
    jsonLen (.jarr xs) = 2 + jsonLenList xs + (xs.length - 1) := by
  simp [jsonLen]

theorem jsonLen_jobj (fs : List (String × JVal)) :
    jsonLen (.jobj fs) = 2 + jsonLenFields fs + (fs.length - 1) := by
  simp [jsonLen]

theorem jsonLenList_nil : jsonLenList [] = 0 := by
  simp [jsonLenList]

theorem jsonLenList_cons (x : JVal) (xs : List JVal) :
    jsonLenList (x :: xs) = jsonLen x + jsonLenList xs := by
  simp [jsonLenList]

theorem jsonLenFields_nil : jsonLenFields [] = 0 := by
  simp [jsonLenFields]

theorem jsonLenFields_cons (kv : String × JVal) (fs : List (String × JVal)) :
    jsonLenFields (kv :: fs) = kv.1.length + 3 + jsonLen kv.2 + jsonLenFields fs := by
  simp [jsonLenFields]

theorem le_jsonLenFields {fs : List (String × JVal)} {k : String} {v : JVal}
    (h : (k, v) ∈ fs) : jsonLen v ≤ jsonLenFields fs := by
  induction fs with
  | nil => simp at h
  | cons x xs ih =>
    rw [jsonLenFields_cons]
    rcases List.mem_cons.mp h with heq | h'
    · rw [← heq]
      have e1 : ((k, v) : String × JVal).1.length = k.length := rfl
      have e2 : jsonLen ((k, v) : String × JVal).2 = jsonLen v := rfl
      rw [e1, e2]
      omega
    · have := ih h'
      omega

theorem le_jsonLenList {xs : List JVal} {x : JVal} (h : x ∈ xs) :
    jsonLen x ≤ jsonLenList xs := by
  induction xs with
  | nil => simp at h
  | cons y ys ih =>
    rw [jsonLenList_cons]
    rcases List.mem_cons.mp h with rfl | h'
    · omega
    · have := ih h'
      omega

theorem jsonLenFields_le_jobj (fs : List (String × JVal)) :
    jsonLenFields fs ≤ jsonLen (.jobj fs) := by
  rw [jsonLen_jobj]
  omega

theorem jsonLenList_le_jarr (xs : List JVal) :
    jsonLenList xs ≤ jsonLen (.jarr xs) := by
  rw [jsonLen_jarr]
  omega

/-- C9 counterexample: src/api/recs.ts enforces NO serialized-size bound.
A type-correct single-item payload whose JSON serialization exceeds
1,048,576 bytes (its title alone is 1,100,000 characters) is accepted:
the handler stores it and answers success instead of rejecting it. -/
theorem c9_no_size_limit_cex :
    1048576 < jsonLen bigBody
    ∧ (handler [] "1.2.3.4" (.post bigBody) 0).2.1 = .success
    ∧ (handler [] "1.2.3.4" (.post bigBody) 0).2.2 = [("u", bigBody)] := by
  refine ⟨?_, rfl, rfl⟩
  have hm2 : ("title", JVal.jstr bigTitle)
      ∈ [("id", JVal.jstr "1"), ("title", JVal.jstr bigTitle),
         ("createdAt", JVal.jstr "2024-01-01")] :=
    List.mem_cons_of_mem _ (List.mem_cons_self _ _)
  have h2 := le_jsonLenFields hm2
  have h3 := jsonLenFields_le_jobj
    [("id", JVal.jstr "1"), ("title", JVal.jstr bigTitle),
     ("createdAt", JVal.jstr "2024-01-01")]
  have h4 := le_jsonLenList (List.mem_cons_self
    (JVal.jobj [("id", JVal.jstr "1"), ("title", JVal.jstr bigTitle),
      ("createdAt", JVal.jstr "2024-01-01")]) [])
  have h5 := jsonLenList_le_jarr
    [JVal.jobj [("id", JVal.jstr "1"), ("title", JVal.jstr bigTitle),
      ("createdAt", JVal.jstr "2024-01-01")]]
  have hm6 : ("items", JVal.jarr [JVal.jobj [("id", JVal.jstr "1"),
        ("title", JVal.jstr bigTitle), ("createdAt", JVal.jstr "2024-01-01")]])
      ∈ [("userId", JVal.jstr "u"),
         ("items", JVal.jarr [JVal.jobj [("id", JVal.jstr "1"),
           ("title", JVal.jstr bigTitle), ("createdAt", JVal.jstr "2024-01-01")]]),
         ("updatedAt", JVal.jstr "2024-01-02")] :=
    List.mem_cons_of_mem _ (List.mem_cons_self _ _)
  have h6 := le_jsonLenFields hm6
  have h7 := jsonLenFields_le_jobj
    [("userId", JVal.jstr "u"),
     ("items", JVal.jarr [JVal.jobj [("id", JVal.jstr "1"),
       ("title", JVal.jstr bigTitle), ("createdAt", JVal.jstr "2024-01-01")]]),
     ("updatedAt", JVal.jstr "2024-01-02")]
  have h0 : 1048576 < jsonLen (JVal.jstr bigTitle) := by
    rw [jsonLen_jstr, bigTitle_length]
    norm_num
  have hfinal : jsonLen (JVal.jobj
      [("userId", JVal.jstr "u"),
       ("items", JVal.jarr [JVal.jobj [("id", JVal.jstr "1"),
         ("title", JVal.jstr bigTitle), ("createdAt", JVal.jstr "2024-01-01")]]),
       ("updatedAt", JVal.jstr "2024-01-02")]) = jsonLen bigBody := rfl
  rw [← hfinal]
  exact Nat.lt_of_lt_of_le h0
    (Nat.le_trans h2 (Nat.le_trans h3 (Nat.le_trans h4
      (Nat.le_trans h5 (Nat.le_trans h6 h7)))))

/-- C9 (amended): a POST that passes the rate limiter is answered with
success and stored exactly when the payload passes the type validation
(`userId`/`updatedAt` strings, `items` an array, every item with string
id/title/createdAt) AND has at most 200 items; a type-valid payload with
more than 200 items gets HTTP 400 with nothing stored; a payload failing
validation gets HTTP 400 with nothing stored; a payload whose member
access throws gets HTTP 500 with nothing stored; NO serialized-byte-size
bound is enforced anywhere. -/
theorem c9_validation_amended :
    ∀ (rate : List (String × RateEntry)) (ip : String) (now : Nat) (body : JVal),
      (checkRateLimit rate ip now).1 = true →
        ((handler rate ip (.post body) now).2.1 = .success
            ↔ validateSavePayload body = .ok true ∧ (jitems body).length ≤ 200)
        ∧ ((handler rate ip (.post body) now).2.1 = .success →
            (handler rate ip (.post body) now).2.2 = [(juserId body, body)])
        ∧ (validateSavePayload body = .ok true → 200 < (jitems body).length →
            (handler rate ip (.post body) now).2.1 = .err 400
            ∧ (handler rate ip (.post body) now).2.2 = [])
        ∧ (validateSavePayload body = .ok false →
            (handler rate ip (.post body) now).2.1 = .err 400
            ∧ (handler rate ip (.post body) now).2.2 = [])
        ∧ (validateSavePayload body = .error () →
            (handler rate ip (.post body) now).2.1 = .err 500
            ∧ (handler rate ip (.post body) now).2.2 = []) := by
  intro rate ip now body hrl
  have hh : handler rate ip (.post body) now
      = ((checkRateLimit rate ip now).2, handlerCore (.post body) now) := by
    simp [handler, hrl]
  rw [hh]
  rcases hv : validateSavePayload body with u | b
  · refine ⟨?_, ?_, ?_, ?_, ?_⟩ <;> simp [handlerCore, hv]
  · cases b with
    | false => refine ⟨?_, ?_, ?_, ?_, ?_⟩ <;> simp [handlerCore, hv]
    | true =>
      by_cases hlen : 200 < (jitems body).length
      · have hnle : ¬ (jitems body).length ≤ 200 := Nat.not_le.mpr hlen
        refine ⟨?_, ?_, ?_, ?_, ?_⟩ <;> simp [handlerCore, hv, hlen, hnle]
      · have hle : (jitems body).length ≤ 200 := Nat.not_lt.mp hlen
        refine ⟨?_, ?_, ?_, ?_, ?_⟩ <;> simp [handlerCore, hv, hlen, hle]

theorem validItems_cons_valid (l : List JVal) :
    validItems (.jobj [("id", .jstr "1"), ("title", .jstr "t"),
      ("createdAt", .jstr "c")] :: l) = validItems l := rfl

theorem validItems_replicate_valid (n : Nat) :
    validItems (List.replicate n (.jobj [("id", .jstr "1"), ("title", .jstr "t"),
      ("createdAt", .jstr "c")])) = .ok true := by
  induction n with
  | zero => rfl
  | succ k ih => rw [List.replicate_succ, validItems_cons_valid, ih]

theorem validate_shape (xs : List JVal) :
    validateSavePayload (.jobj [("userId", .jstr "u"), ("items", .jarr xs),
      ("updatedAt", .jstr "w")]) = validItems xs := rfl

theorem jitems_shape (xs : List JVal) :
    jitems (.jobj [("userId", .jstr "u"), ("items", .jarr xs),
      ("updatedAt", .jstr "w")]) = xs := rfl

theorem manyBody_shape :
    manyBody = .jobj [("userId", .jstr "u"),
      ("items", .jarr (List.replicate 201 (.jobj [("id", .jstr "1"),
        ("title", .jstr "t"), ("createdAt", .jstr "c")]))),
      ("updatedAt", .jstr "w")] := rfl

theorem validate_manyBody : validateSavePayload manyBody = .ok true := by
  rw [manyBody_shape, validate_shape, validItems_replicate_valid]

theorem jitems_manyBody :
    jitems manyBody = List.replicate 201 (.jobj [("id", .jstr "1"),
      ("title", .jstr "t"), ("createdAt", .jstr "c")]) := by
  rw [manyBody_shape, jitems_shape]

theorem manyBody_over_cap : 200 < (jitems manyBody).length := by
  rw [jitems_manyBody, List.length_replicate]
  norm_num

/-- C9 witness: the amended POST contract instantiated on a small valid
one-item payload and on a type-valid 201-item payload (rejected with 400
and nothing stored) from an unthrottled client. -/
theorem c9_validation_amended_witness :
    (checkRateLimit [] "ip" 5).1 = true
    ∧ ((handler [] "ip" (.post smallBody) 5).2.1 = .success
        ↔ validateSavePayload smallBody = .ok true ∧ (jitems smallBody).length ≤ 200)
    ∧ validateSavePayload manyBody = .ok true
    ∧ 200 < (jitems manyBody).length
    ∧ (handler [] "ip" (.post manyBody) 5).2.1 = .err 400
    ∧ (handler [] "ip" (.post manyBody) 5).2.2 = [] := by
  refine ⟨rfl, (c9_validation_amended [] "ip" 5 smallBody rfl).1, validate_manyBody,
    manyBody_over_cap, ?_, ?_⟩
  · exact ((c9_validation_amended [] "ip" 5 manyBody rfl).2.2.1 validate_manyBody
      manyBody_over_cap).1
  · exact ((c9_validation_amended [] "ip" 5 manyBody rfl).2.2.1 validate_manyBody
      manyBody_over_cap).2

/-- C10: the handler constructs a fresh in-memory adapter on every request,
so a rate-limit-passing GET for any nonempty userId is answered with the
synthesized empty document (userId, items [], updatedAt now) whatever the
rate map — in particular right after a successful POST of any payload for
any user — and a GET response is never a stored document. -/
theorem c10_fresh_adapter_empty_get :
    (∀ (rate : List (String × RateEntry)) (ip u : String) (now : Nat),
        u ≠ "" → (checkRateLimit rate ip now).1 = true →
          (handler rate ip (.get (some u)) now).2.1 = .synthesized u now
          ∧ (handler rate ip (.get (some u)) now).2.2 = [])
    ∧ (∀ (ip : String) (body : JVal) (t1 t2 : Nat) (u : String), u ≠ "" →
        (handler (handler [] ip (.post body) t1).1 ip (.get (some u)) t2).2.1
            = .synthesized u t2
          ∧ (validateSavePayload body = .ok true → (jitems body).length ≤ 200 →
              (handler [] ip (.post body) t1).2.1 = .success))
    ∧ (∀ (u : String) (now : Nat) (doc : JVal),
        Resp.synthesized u now ≠ .stored doc) := by
  have hget : ∀ (rate : List (String × RateEntry)) (ip u : String) (now : Nat),
      u ≠ "" → (checkRateLimit rate ip now).1 = true →
        (handler rate ip (.get (some u)) now).2.1 = .synthesized u now
        ∧ (handler rate ip (.get (some u)) now).2.2 = [] := by
    intro rate ip u now hu hrl
    have hne : (u == "") = false := beq_eq_false_iff_ne.mpr hu
    constructor <;> simp [handler, hrl, handlerCore, hne]
  refine ⟨hget, ?_, ?_⟩
  · intro ip body t1 t2 u hu
    have hr1 : (handler [] ip (.post body) t1).1
        = [(ip, { count := 1, resetTime := t1 + 60000 })] := by
      simp [handler, checkRateLimit]
    have hallow : (checkRateLimit
        [(ip, { count := 1, resetTime := t1 + 60000 })] ip t2).1 = true := by
      by_cases hr : t1 + 60000 < t2 <;> simp [checkRateLimit, hr]
    constructor
    · rw [hr1]
      exact (hget _ ip u t2 hu hallow).1
    · intro hval hlen
      simp [handler, checkRateLimit, handlerCore, hval, Nat.not_lt.mpr hlen]
  · intro u now doc h
    simp at h

/-- C10 witness: a GET for user "u" against an empty rate map is answered
with the synthesized empty document for time 3. -/
theorem c10_fresh_adapter_empty_get_witness :
    ("u" : String) ≠ ""
    ∧ (handler [] "ip" (.get (some "u")) 3).2.1 = .synthesized "u" 3 :=
  ⟨by decide, (c10_fresh_adapter_empty_get.1 [] "ip" "u" 3 (by decide) rfl).1⟩

end RecsApi
